import Mathlib

/-!
Verification development for the project-initialization helper in
`src/cide/new_project_dialog.cc` (CIDE).

The C++ code is shallowly embedded: `QString`s become `List Char` (for the
scanned configuration text) or `String` (for generated file contents and
paths), character positions become `Nat`, and the Qt filesystem calls are
represented by an oracle that decides which directory-create and file-open
operations succeed.  The loops in `TryGuessProjectName` are embedded as
fuel-based structural recursions (the fuel chosen large enough that it is
never exhausted on the runs the source performs), so that every definition
is executable by the kernel.
-/

namespace Cide

/-- Model of `QChar::isSpace` restricted to the ASCII whitespace characters
(the only ones relevant to the claims; Qt additionally treats some Unicode
separator characters as spaces). -/
def qIsSpace (c : Char) : Bool :=
  c = ' ' || c = '\t' || c = '\n' || c = '\x0b' || c = '\x0c' || c = '\r'

/-- The token searched for by `TryGuessProjectName`: the literal `"project"`
(compared case-insensitively, `Qt::CaseInsensitive`). -/
def projectToken : List Char := ['p', 'r', 'o', 'j', 'e', 'c', 't']

/-- Case-insensitive match of `projectToken` at position `i` of `text`:
the model of one comparison step of `QString::indexOf("project", cursor,
Qt::CaseInsensitive)`.  Lowercasing is `Char.toLower` (ASCII folding; no
non-ASCII character case-folds onto the letters of `project`). -/
def matchesAt (text : List Char) (i : Nat) : Bool :=
  decide ((((text.drop i).take 7).map Char.toLower) = projectToken)

/-- Fuel-based scan for `matchesAt`, modelling
`text.indexOf("project", i, Qt::CaseInsensitive)`. -/
def findTokenFromAux : Nat → List Char → Nat → Option Nat
  | 0, _, _ => none
  | fuel + 1, text, i =>
    if i + 7 ≤ text.length then
      if matchesAt text i then some i else findTokenFromAux fuel text (i + 1)
    else none

/-- Position of the first case-insensitive occurrence of `project` at or after
`i`, or `none`. -/
def findTokenFrom (text : List Char) (i : Nat) : Option Nat :=
  findTokenFromAux (text.length + 1 - i) text i

/-- Fuel-based scan for a single character, modelling
`text.indexOf(ch, i)`. -/
def findCharFromAux : Nat → List Char → Char → Nat → Option Nat
  | 0, _, _, _ => none
  | fuel + 1, text, ch, i =>
    if h : i < text.length then
      if text[i] = ch then some i else findCharFromAux fuel text ch (i + 1)
    else none

/-- Position of the first occurrence of `ch` at or after position `i`, or
`none`: the model of `text.indexOf(ch, i)`. -/
def findCharFrom (text : List Char) (ch : Char) (i : Nat) : Option Nat :=
  findCharFromAux (text.length - i) text ch i

/-- Fuel-based model of the whitespace-skipping loop
`while (leftBracketPos < text.size() && text[leftBracketPos].isSpace())
++leftBracketPos;`. -/
def skipSpacesAux : Nat → List Char → Nat → Nat
  | 0, _, i => i
  | fuel + 1, text, i =>
    if h : i < text.length then
      if qIsSpace text[i] then skipSpacesAux fuel text (i + 1) else i
    else i

/-- The position reached by the whitespace-skipping loop started at `i`. -/
def skipSpaces (text : List Char) (i : Nat) : Nat :=
  skipSpacesAux (text.length - i) text i

/-- Model of reading `text[i]` through Qt 5's `QCharRef`: an in-bounds read
returns the character, a read one past the end (as the source can perform
at `text[leftBracketPos]`) yields the null `QChar`. -/
def qCharAt (text : List Char) (i : Nat) : Char :=
  if h : i < text.length then text[i] else Char.ofNat 0

/-- Strip leading characters satisfying `qIsSpace` (one side of
`QString::trimmed`). -/
def trimLeft : List Char → List Char
  | [] => []
  | c :: rest => if qIsSpace c then trimLeft rest else c :: rest

/-- Model of `QString::trimmed()`: whitespace stripped from both ends. -/
def qTrim (l : List Char) : List Char :=
  (trimLeft (trimLeft l.reverse).reverse)

/-- The character-accumulation loop over the trimmed argument string in
`TryGuessProjectName`, after the first character has been examined:
`inString` is the `haveString` flag.  The loop returns (stops) at a closing
double-quote when `inString` is set, and at any whitespace character
regardless of `inString`; every other character is appended. -/
def scanName (inString : Bool) : List Char → List Char
  | [] => []
  | c :: rest =>
    if inString ∧ c = '"' then []
    else if qIsSpace c then []
    else c :: scanName inString rest

/-- The full argument-parsing loop of `TryGuessProjectName` (lines 257-271):
a leading double-quote (and only a leading one, `i == 0`) sets `haveString`
and is skipped; the remainder is consumed by `scanName`. -/
def nameFromArgs (args : List Char) : List Char :=
  match args with
  | [] => []
  | c :: rest => if c = '"' then scanName true rest else scanName false (c :: rest)

/-- Outcome of the `while (true)` scanning loop of `TryGuessProjectName`:
the extracted name, if any iteration returned one, together with a flag
recording whether the `text[leftBracketPos] == '('` test was ever performed
at the position one past the end of the text. -/
structure ScanOutcome where
  found : Option (List Char)
  oob : Bool
deriving DecidableEq, Repr

/-- The `while (true)` loop of `TryGuessProjectName` (lines 242-274), with
`cursor` the scan position and fuel for the recursion.  Each iteration:
find `project` case-insensitively from `cursor`; on failure stop; otherwise
advance by 7, skip whitespace, test for `(` (through `qCharAt`, recording
whether that test touched the past-the-end position), and if `(` is
present look for the following `)`.  A found `)` returns the parsed name of
the trimmed in-between substring (`text.mid(lb+1, rb-lb-1).trimmed()`);
otherwise scanning resumes at the advanced cursor. -/
def scanLoopAux (text : List Char) : Nat → Nat → ScanOutcome
  | 0, _ => ⟨none, false⟩
  | fuel + 1, cursor =>
    match findTokenFrom text cursor with
    | none => ⟨none, false⟩
    | some pos =>
      let cur2 := pos + 7
      let lb := skipSpaces text cur2
      let oobHere := decide (lb = text.length)
      if qCharAt text lb = '(' then
        match findCharFrom text ')' (lb + 1) with
        | some rb =>
          ⟨some (nameFromArgs (qTrim ((text.drop (lb + 1)).take (rb - lb - 1)))), oobHere⟩
        | none =>
          let r := scanLoopAux text fuel cur2
          ⟨r.found, oobHere || r.oob⟩
      else
        let r := scanLoopAux text fuel cur2
        ⟨r.found, oobHere || r.oob⟩

/-- The whole text scan of `TryGuessProjectName`, started at cursor 0.
The fuel `text.length + 1` is never exhausted: every iteration advances the
cursor by at least 7 while keeping it within the text. -/
def scanText (text : List Char) : ScanOutcome :=
  scanLoopAux text (text.length + 1) 0

/-- The environment `TryGuessProjectName` runs in: whether
`existingCMakeFilePath` is empty, whether the configuration file could be
opened for reading, the decoded file text, and
`QFileInfo(existingCMakeFilePath).dir().dirName()` (the final path
component of the file's containing directory). -/
structure GuessEnv where
  pathEmpty : Bool
  fileOpens : Bool
  text : List Char
  dirName : List Char

/-- Model of `NewProjectDialog::TryGuessProjectName` (lines 232-279): empty path
returns the empty string; a readable file is scanned and a found name
returned; otherwise the directory-name fallback is returned. -/
def tryGuessProjectName (env : GuessEnv) : List Char :=
  if env.pathEmpty then []
  else if env.fileOpens then
    match (scanText env.text).found with
    | some name => name
    | none => env.dirName
  else env.dirName

/-! ## Scaffolding (`CreateNewProject`, `CreateProjectForExistingCMakeListsTxtFile`) -/

/-- Model of `QString::replace("\n", "\r\n")` on the character list: the pattern is a
single character, so the forward non-overlapping replacement is exactly a
character-wise expansion of `'\n'` into `'\r', '\n'`. -/
def replaceLfCrLf : List Char → List Char
  | [] => []
  | c :: rest =>
    if c = '\n' then '\r' :: '\n' :: replaceLfCrLf rest
    else c :: replaceLfCrLf rest

/-- The final newline transform applied to every generated text: identity
for LF, `replaceLfCrLf` when the host's newline format is CRLF
(`mainWindow->GetDefaultNewlineFormat() == NewlineFormat::CrLf`). -/
def applyNewline (crlf : Bool) (s : String) : String :=
  if crlf then ⟨replaceLfCrLf s.data⟩ else s

/-- Model of `QDir(d).filePath(f)` for an absolute directory `d` without trailing
slash and a relative `f`: concatenation with a `/` separator. -/
def filePath (d f : String) : String := d ++ "/" ++ f

/-- Warning text of line 112 (project directory creation failed). -/
def errProjectDir (p : String) : String :=
  "Failed to create project directory (" ++ p ++ ")."

/-- Warning text of lines 124 and 214 (project file creation failed). -/
def errProjectFile (p : String) : String :=
  "Failed to create project file (" ++ p ++ ")."

/-- Warning text of line 144 (CMakeLists.txt creation failed). -/
def errCMakeListsFile (p : String) : String :=
  "Failed to create CMakeLists.txt file (" ++ p ++ ")."

/-- Warning text of line 182 (main file creation failed). -/
def errMainFile (p : String) : String :=
  "Failed to create main file (" ++ p ++ ")."

/-- The `<name>.cide` descriptor written by `CreateNewProject`
(lines 127-133), with `%1 := projectName` and `%2 := binaryName =
projectName` substituted. -/
def newProjectDescriptor (name : String) : String :=
  "name: " ++ name ++ "\n" ++
  "projectCMakeDir: build\n" ++
  "buildDir: build\n" ++
  "buildTarget: " ++ name ++ "\n" ++
  "runDir: build\n" ++
  "runCmd: ./" ++ name ++ "\n"

/-- The `CMakeLists.txt` template of `CreateNewProject` (lines 147-164),
with `%1 := projectName`, `%2 := binaryName` and `%3 := srcSubfolderName`
all equal to the project name. -/
def cmakeListsText (name : String) : String :=
  "cmake_minimum_required(VERSION 3.0)\n" ++
  "\n" ++
  "project(" ++ name ++ ")\n" ++
  "\n" ++
  "# To set a C++ standard:\n" ++
  "# set(CMAKE_CXX_STANDARD 11)\n" ++
  "\n" ++
  "add_executable(" ++ name ++ "\n" ++
  "  src/" ++ name ++ "/main.cc\n" ++
  ")\n" ++
  "target_compile_options(" ++ name ++ " PUBLIC\n" ++
  "  \"$<$<COMPILE_LANGUAGE:CXX>:-Wall>\"\n" ++
  "  \";$<$<COMPILE_LANGUAGE:CXX>:-Wextra>\"\n" ++
  "  \";$<$<COMPILE_LANGUAGE:CXX>:-O2>\"\n" ++
  "  \";$<$<COMPILE_LANGUAGE:CXX>:-msse2>\"\n" ++
  "  \";$<$<COMPILE_LANGUAGE:CXX>:-msse3>\"\n" ++
  ")\n"

/-- The `main.cc` stub written by `CreateNewProject` (lines 185-188). -/
def mainCcText : String :=
  "int main(int argc, char** argv) \x7b\n  \n\x7d\n"

/-- The `<name>.cide` descriptor written by
`CreateProjectForExistingCMakeListsTxtFile` (lines 217-222), with
`%1 := projectName`, `%2 := binaryName = projectName` and
`%3 := cmakeFileDir.relativeFilePath(buildDirPath)`.  Note this variant has
no `buildTarget` field. -/
def attachDescriptor (name rel : String) : String :=
  "name: " ++ name ++ "\n" ++
  "projectCMakeDir: " ++ rel ++ "\n" ++
  "buildDir: " ++ rel ++ "\n" ++
  "runDir: " ++ rel ++ "\n" ++
  "runCmd: ./" ++ name ++ "\n"

/-- The filesystem environment of one scaffolding run: which directory
creations (`QDir::mkpath` / `QDir::mkdir`) and which file opens for
writing (`QFile::open(WriteOnly | Truncate)`) the operating system lets
succeed.  The oracle abstracts permissions, disk state, and so on. -/
structure Oracle where
  createDirOk : String → Bool
  openFileOk : String → Bool

/-- Observable outcome of a scaffolding run: the returned boolean, the
warning dialogs shown (`QMessageBox::warning` texts), the directory paths
whose create operation succeeded, the directory create operations whose
failure was ignored by the code, and the `(path, content)` pairs written. -/
structure RunResult where
  success : Bool
  reportedErrors : List String
  createdDirs : List String
  dirCreateFailures : List String
  writtenFiles : List (String × String)
deriving DecidableEq, Repr

/-- The path of the `src` subdirectory the source creates with
`srcDir.mkdir("src")`. -/
def srcPathOf (folder : String) : String := filePath folder "src"

/-- Where the `QDir` sits after `srcDir.mkdir("src"); srcDir.cd("src")`.
The filesystem is modelled as initially empty, so `cd` (whose result the
source ignores) succeeds exactly when the preceding `mkdir` succeeded; on
a failed `cd` the `QDir` keeps its previous path. -/
def srcDir1Of (orc : Oracle) (folder : String) : String :=
  if orc.createDirOk (srcPathOf folder) then srcPathOf folder else folder

/-- The path passed to `srcDir.mkdir(srcSubfolderName)`. -/
def subPathOf (orc : Oracle) (folder name : String) : String :=
  filePath (srcDir1Of orc folder) name

/-- Where the `QDir` sits after the second `mkdir`/`cd` pair, i.e. the
directory into which `main.cc` is opened. -/
def srcDir2Of (orc : Oracle) (folder name : String) : String :=
  if orc.createDirOk (subPathOf orc folder name) then subPathOf orc folder name
  else srcDir1Of orc folder

/-- The directories brought into existence by the two `mkdir` calls of the
`src/<name>` block (lines 172-176). -/
def srcDirsCreated (orc : Oracle) (folder name : String) : List String :=
  (if orc.createDirOk (srcPathOf folder) then [srcPathOf folder] else []) ++
  (if orc.createDirOk (subPathOf orc folder name) then [subPathOf orc folder name] else [])

/-- The `mkdir` calls of the `src/<name>` block whose failure the source
ignores. -/
def srcDirFailures (orc : Oracle) (folder name : String) : List String :=
  (if orc.createDirOk (srcPathOf folder) then [] else [srcPathOf folder]) ++
  (if orc.createDirOk (subPathOf orc folder name) then [] else [subPathOf orc folder name])

/-- Outcome of the final `dir.mkdir("build")` (line 196) when it succeeds. -/
def buildDirsCreated (orc : Oracle) (folder : String) : List String :=
  if orc.createDirOk (filePath folder "build") then [filePath folder "build"] else []

/-- Outcome of the final `dir.mkdir("build")` (line 196) when it fails:
the failure is ignored by the source. -/
def buildDirFailures (orc : Oracle) (folder : String) : List String :=
  if orc.createDirOk (filePath folder "build") then [] else [filePath folder "build"]

/-- Model of `NewProjectDialog::CreateNewProject` (lines 108-199).  `folder` is
`folderEdit->text()`, `name` is `nameEdit->text()` (equal to `binaryName`
and `srcSubfolderName`), `crlf` the host newline preference.  The branch
structure mirrors the source: only the initial `mkpath` and the three
`QFile::open` calls are checked; the `mkdir`/`cd` results of lines 172-176
and 196 are ignored. -/
def createNewProject (orc : Oracle) (folder name : String) (crlf : Bool) : RunResult :=
  if orc.createDirOk folder = false then
    ⟨false, [errProjectDir folder], [], [folder], []⟩
  else if orc.openFileOk (filePath folder (name ++ ".cide")) = false then
    ⟨false, [errProjectFile (filePath folder (name ++ ".cide"))], [folder], [], []⟩
  else if orc.openFileOk (filePath folder "CMakeLists.txt") = false then
    ⟨false, [errCMakeListsFile (filePath folder "CMakeLists.txt")], [folder], [],
     [(filePath folder (name ++ ".cide"), applyNewline crlf (newProjectDescriptor name))]⟩
  else if orc.openFileOk (filePath (srcDir2Of orc folder name) "main.cc") = false then
    ⟨false, [errMainFile (filePath (srcDir2Of orc folder name) "main.cc")],
     [folder] ++ srcDirsCreated orc folder name,
     srcDirFailures orc folder name,
     [(filePath folder (name ++ ".cide"), applyNewline crlf (newProjectDescriptor name)),
      (filePath folder "CMakeLists.txt", applyNewline crlf (cmakeListsText name))]⟩
  else
    ⟨true, [],
     [folder] ++ srcDirsCreated orc folder name ++ buildDirsCreated orc folder,
     srcDirFailures orc folder name ++ buildDirFailures orc folder,
     [(filePath folder (name ++ ".cide"), applyNewline crlf (newProjectDescriptor name)),
      (filePath folder "CMakeLists.txt", applyNewline crlf (cmakeListsText name)),
      (filePath (srcDir2Of orc folder name) "main.cc", applyNewline crlf mainCcText)]⟩

/-- An absolute filesystem path: a root (empty on Unix-like systems, a
drive spec such as `C:` on Windows) and the path components. -/
structure AbsPath where
  root : String
  comps : List String
deriving DecidableEq, Repr

/-- The textual form of an absolute path, e.g. `/tmp/x` or `D:/build`. -/
def absPathString (p : AbsPath) : String :=
  p.root ++ "/" ++ String.intercalate "/" p.comps

/-- Drop the longest common leading run of components of two paths. -/
def dropCommon : List String → List String → List String × List String
  | a :: as, b :: bs => if a = b then dropCommon as bs else (a :: as, b :: bs)
  | as, bs => (as, bs)

/-- Model of `QDir::relativeFilePath`: for two absolute paths on the same root,
ascend with `..` past the non-shared components of the directory and
descend into the target (`.` when the result would be empty); for paths
with different roots (different drives), the target is returned unchanged
as an absolute path. -/
def relativeFilePath (dir file : AbsPath) : String :=
  if dir.root ≠ file.root then absPathString file
  else
    let rest := dropCommon dir.comps file.comps
    let parts := rest.1.map (fun _ => "..") ++ rest.2
    if parts.isEmpty then "." else String.intercalate "/" parts

/-- Outcome of `buildDir.mkpath(".")` (line 209) when it succeeds. -/
def attachDirsCreated (orc : Oracle) (buildDir : AbsPath) : List String :=
  if orc.createDirOk (absPathString buildDir) then [absPathString buildDir] else []

/-- Outcome of `buildDir.mkpath(".")` (line 209) when it fails: the result
is ignored by the source. -/
def attachDirFailures (orc : Oracle) (buildDir : AbsPath) : List String :=
  if orc.createDirOk (absPathString buildDir) then [] else [absPathString buildDir]

/-- Model of `NewProjectDialog::CreateProjectForExistingCMakeListsTxtFile`
(lines 201-230).  `cmakeFileDir` is the directory of
`existingCMakeFilePath`, `buildDir` the directory in `folderEdit`; the
result of `buildDir.mkpath(".")` is ignored by the source. -/
def createProjectForExistingCMakeListsTxtFile
    (orc : Oracle) (cmakeFileDir buildDir : AbsPath) (name : String) (crlf : Bool) :
    RunResult :=
  if orc.openFileOk (filePath (absPathString cmakeFileDir) (name ++ ".cide")) = false then
    ⟨false, [errProjectFile (filePath (absPathString cmakeFileDir) (name ++ ".cide"))],
     attachDirsCreated orc buildDir, attachDirFailures orc buildDir, []⟩
  else
    ⟨true, [],
     attachDirsCreated orc buildDir, attachDirFailures orc buildDir,
     [(filePath (absPathString cmakeFileDir) (name ++ ".cide"),
       applyNewline crlf (attachDescriptor name (relativeFilePath cmakeFileDir buildDir)))]⟩

/-- Directory `d` covers directory `c` when `c` equals `d` or lies strictly below it
(so that a recursive create of `c` also creates `d`). -/
def coveredBy (d c : String) : Bool :=
  d = c || List.isPrefixOf (d.data ++ ['/']) c.data

/-! ## Helper lemmas about the scan primitives -/

/-- The name-accumulating loop consumes a clean run of characters and stops
at the first stopper (a quote in string mode, or any whitespace). -/
lemma scanName_append_stop (inString : Bool) (a b : List Char) (stop : Char)
    (hstop : (inString = true ∧ stop = '"') ∨ qIsSpace stop = true)
    (ha : ∀ c ∈ a, qIsSpace c = false ∧ c ≠ '"') :
    scanName inString (a ++ stop :: b) = a := by
  induction a with
  | nil =>
    rcases hstop with ⟨hi, hq⟩ | hs
    · subst hi hq; simp [scanName]
    · rcases hq : decide (inString = true ∧ stop = '"') with _ | _
      · simp only [List.nil_append, scanName]
        rw [if_neg (by simpa using of_decide_eq_false hq), if_pos hs]
      · have := of_decide_eq_true hq
        rcases this with ⟨hi, hq'⟩
        subst hi hq'; simp [scanName]
  | cons c a ih =>
    have hc := ha c (by simp)
    simp only [List.cons_append, scanName]
    rw [if_neg (by rintro ⟨_, h⟩; exact hc.2 h), if_neg (by simp [hc.1])]
    simp [ih fun c hc => ha c (by simp [hc])]

/-- A list whose first and last characters are not whitespace is unchanged
by trimming. -/
lemma qTrim_eq_self (l : List Char)
    (h1 : ∀ c, l.head? = some c → qIsSpace c = false)
    (h2 : ∀ c, l.getLast? = some c → qIsSpace c = false) :
    qTrim l = l := by
  have trimLeft_id : ∀ (m : List Char), (∀ c, m.head? = some c → qIsSpace c = false) →
      trimLeft m = m := by
    intro m hm
    cases m with
    | nil => rfl
    | cons c rest => simp [trimLeft, hm c rfl]
  unfold qTrim
  rw [trimLeft_id l.reverse (by simpa [List.head?_reverse] using h2),
    List.reverse_reverse, trimLeft_id l h1]

/-- One unfolding of `findTokenFromAux` at a matching position. -/
lemma findTokenFromAux_at_match (fuel : Nat) (text : List Char) (i : Nat)
    (hlen : i + 7 ≤ text.length) (hm : matchesAt text i = true) :
    findTokenFromAux (fuel + 1) text i = some i := by
  simp [findTokenFromAux, hlen, hm]

/-- The whitespace-skipping loop stops immediately on a non-space. -/
lemma skipSpacesAux_stop (fuel : Nat) (text : List Char) (i : Nat)
    (h : i < text.length) (hs : qIsSpace text[i] = false) :
    skipSpacesAux fuel text i = i := by
  cases fuel with
  | zero => rfl
  | succ fuel => simp [skipSpacesAux, h, hs]

/-- An in-bounds `QCharRef` read returns the character itself. -/
lemma qCharAt_of_lt (text : List Char) (i : Nat) (h : i < text.length) :
    qCharAt text i = text[i] := by
  simp [qCharAt, h]

/-- A test `qCharAt text i = '('` can only succeed in bounds: the
past-the-end read yields the null character. -/
lemma lt_of_qCharAt_lparen (text : List Char) (i : Nat)
    (h : qCharAt text i = '(') : i < text.length := by
  by_contra hge
  rw [qCharAt, dif_neg hge] at h
  exact absurd h (by decide)

/-- Index of the first occurrence of a character in a list. -/
def firstIdx (ch : Char) : List Char → Option Nat
  | [] => none
  | c :: rest => if c = ch then some 0 else (firstIdx ch rest).map (· + 1)

/-- The fuel-based character search agrees with `firstIdx` on the dropped
suffix, provided the fuel covers the remaining length. -/
lemma findCharFromAux_eq_firstIdx (text : List Char) (ch : Char) :
    ∀ (fuel i : Nat), text.length - i ≤ fuel →
      findCharFromAux fuel text ch i = (firstIdx ch (text.drop i)).map (· + i) := by
  intro fuel
  induction fuel with
  | zero =>
    intro i hf
    have : text.drop i = [] := List.drop_eq_nil_of_le (by omega)
    simp [findCharFromAux, this, firstIdx]
  | succ fuel ih =>
    intro i hf
    by_cases h : i < text.length
    · rw [List.drop_eq_getElem_cons h]
      simp only [findCharFromAux, dif_pos h, firstIdx]
      by_cases hc : text[i] = ch
      · simp [hc]
      · rw [if_neg hc, if_neg hc, ih (i + 1) (by omega), Option.map_map]
        congr 1
        funext a
        simp only [Function.comp_apply]
        omega
    · have : text.drop i = [] := List.drop_eq_nil_of_le (by omega)
      simp [findCharFromAux, h, this, firstIdx]

/-- Character search expressed through `firstIdx`. -/
lemma findCharFrom_eq_firstIdx (text : List Char) (ch : Char) (i : Nat) :
    findCharFrom text ch i = (firstIdx ch (text.drop i)).map (· + i) :=
  findCharFromAux_eq_firstIdx text ch (text.length - i) i le_rfl

/-- In `u ++ ch :: v` with `ch` absent from `u`, the first occurrence of
`ch` is exactly at position `u.length`. -/
lemma firstIdx_append_cons (ch : Char) (u v : List Char) (h : ch ∉ u) :
    firstIdx ch (u ++ ch :: v) = some u.length := by
  induction u with
  | nil => simp [firstIdx]
  | cons c u ih =>
    have hc : c ≠ ch := fun hc => h (by simp [hc])
    rw [List.cons_append, firstIdx, if_neg hc, ih fun hm => h (by simp [hm])]
    simp

/-- If a character does not occur in the text, the character search fails
from every position. -/
lemma findCharFromAux_none (text : List Char) (ch : Char) (h : ch ∉ text) :
    ∀ (fuel i : Nat), findCharFromAux fuel text ch i = none := by
  intro fuel
  induction fuel with
  | zero => intro i; rfl
  | succ fuel ih =>
    intro i
    by_cases hi : i < text.length
    · have : text[i] ≠ ch := fun hc => h (hc ▸ text.getElem_mem hi)
      simp [findCharFromAux, hi, this, ih]
    · simp [findCharFromAux, hi]

/-- The eight characters `project(`: a configuration text starting with
them matches the token search immediately, with the bracket adjacent. -/
def tokenParen : List Char := ['p', 'r', 'o', 'j', 'e', 'c', 't', '(']

/-- A text of the shape `project(<args>)<anything>` (with no `)` inside
`args`) is resolved by the very first loop iteration: the scan returns the
parsed name of the trimmed `args` and never reads past the closing
bracket.  In particular the outcome does not depend on what follows. -/
lemma scanText_firstMatch (args s : List Char) (h : ')' ∉ args) :
    scanText (tokenParen ++ args ++ ')' :: s) =
      ⟨some (nameFromArgs (qTrim args)), false⟩ := by
  set text := tokenParen ++ args ++ ')' :: s with htext
  have hlen : text.length = args.length + s.length + 9 := by
    simp [htext, tokenParen]
    omega
  have hmatch : matchesAt text 0 = true := by
    rw [htext]
    rfl
  have hfind : findTokenFrom text 0 = some 0 := by
    rw [findTokenFrom, Nat.sub_zero]
    exact findTokenFromAux_at_match text.length text 0 (by omega) hmatch
  have h7 : (7 : Nat) < text.length := by omega
  have hget7 : text[7] = '(' := by
    have h2 : text.get? 7 = some '(' := by rw [htext]; rfl
    rw [List.get?_eq_getElem?, List.getElem?_eq_getElem h7] at h2
    exact Option.some.inj h2
  have hskip : skipSpaces text 7 = 7 :=
    skipSpacesAux_stop _ text 7 h7 (by rw [hget7]; decide)
  have hdrop : text.drop 8 = args ++ ')' :: s := by
    rw [htext, List.append_assoc]
    have : (8 : Nat) = tokenParen.length := by simp [tokenParen]
    rw [this, List.drop_left]
  have hrb : findCharFrom text ')' 8 = some (args.length + 8) := by
    rw [findCharFrom_eq_firstIdx, hdrop, firstIdx_append_cons ')' args s h]
    rfl
  have htake : (text.drop 8).take (args.length + 8 - 7 - 1) = args := by
    rw [hdrop]
    have : args.length + 8 - 7 - 1 = args.length := by omega
    rw [this, List.take_left]
  rw [scanText, hlen]
  show scanLoopAux text (args.length + s.length + 9 + 1) 0 =
    ⟨some (nameFromArgs (qTrim args)), false⟩
  rw [scanLoopAux, hfind]
  simp only
  rw [show (0 : Nat) + 7 = 7 from rfl, hskip, qCharAt_of_lt text 7 h7, hget7,
    if_pos rfl]
  rw [show (7 : Nat) + 1 = 8 from rfl, hrb]
  simp only [htake]
  have : decide (7 = text.length) = false := by
    rw [decide_eq_false_iff_not]
    omega
  rw [this]

/-- Whitespace characters stay themselves under lowercasing and are not
the letter `p`, so a whitespace position can never start a token match. -/
lemma toLower_ne_p_of_space (c : Char) (h : qIsSpace c = true) :
    Char.toLower c ≠ 'p' := by
  simp only [qIsSpace, Bool.or_eq_true, decide_eq_true_eq] at h
  rcases h with ((((h | h) | h) | h) | h) | h <;> subst h <;> decide

/-- A token match cannot start at an in-bounds whitespace position. -/
lemma matchesAt_false_of_space (text : List Char) (i : Nat)
    (h : i < text.length) (hs : qIsSpace text[i] = true) :
    matchesAt text i = false := by
  rw [matchesAt, decide_eq_false_iff_not]
  intro hm
  rw [List.drop_eq_getElem_cons h] at hm
  simp only [List.take_succ_cons, List.map_cons, projectToken] at hm
  exact toLower_ne_p_of_space text[i] hs (List.head_eq_of_cons_eq hm)

/-- If every position from `c` on holds whitespace, the token search fails
from every position at or after `c`. -/
lemma findTokenFromAux_none_of_spaces (text : List Char) (c : Nat)
    (hsp : ∀ j, c ≤ j → ∀ h : j < text.length, qIsSpace text[j] = true) :
    ∀ (fuel i : Nat), c ≤ i → findTokenFromAux fuel text i = none := by
  intro fuel
  induction fuel with
  | zero => intro i _; rfl
  | succ fuel ih =>
    intro i hci
    by_cases hlen : i + 7 ≤ text.length
    · have hi : i < text.length := by omega
      rw [findTokenFromAux, if_pos hlen,
        matchesAt_false_of_space text i hi (hsp i hci hi)]
      simpa using ih (i + 1) (by omega)
    · simp [findTokenFromAux, hlen]

/-- If the whitespace-skipping loop starting at `i` reaches the end of the
text, every in-bounds position at or after `i` holds whitespace. -/
lemma skipSpacesAux_all_spaces (text : List Char) :
    ∀ (fuel i : Nat), skipSpacesAux fuel text i = text.length →
      ∀ j, i ≤ j → ∀ h : j < text.length, qIsSpace text[j] = true := by
  intro fuel
  induction fuel with
  | zero =>
    intro i hrun j hij hj
    have : i = text.length := hrun
    omega
  | succ fuel ih =>
    intro i hrun j hij hj
    by_cases hi : i < text.length
    · by_cases hs : qIsSpace text[i] = true
      · rw [skipSpacesAux, dif_pos hi, if_pos hs] at hrun
        rcases Nat.eq_or_lt_of_le hij with rfl | hlt
        · exact hs
        · exact ih (i + 1) hrun j (by omega) hj
      · rw [skipSpacesAux, dif_pos hi, if_neg hs] at hrun
        omega
    · rw [skipSpacesAux, dif_neg hi] at hrun
      omega

/-- If no `)` occurs in the text, no iteration of the scanning loop can
return a name: the scan always falls through to the fallback. -/
lemma scanLoopAux_found_none_of_no_rparen (text : List Char) (h : ')' ∉ text) :
    ∀ (fuel cursor : Nat), (scanLoopAux text fuel cursor).found = none := by
  intro fuel
  induction fuel with
  | zero => intro cursor; rfl
  | succ fuel ih =>
    intro cursor
    rw [scanLoopAux]
    cases hfind : findTokenFrom text cursor with
    | none => rfl
    | some pos =>
      simp only
      have hrb : findCharFrom text ')' (skipSpaces text (pos + 7) + 1) = none := by
        rw [findCharFrom]
        exact findCharFromAux_none text ')' h _ _
      by_cases hq : qCharAt text (skipSpaces text (pos + 7)) = '('
      · rw [if_pos hq, hrb]
        exact ih (pos + 7)
      · rw [if_neg hq]
        exact ih (pos + 7)

/-- The central fact behind the past-the-end access: when the whitespace
skip runs to the end of the text, the rest of the text is whitespace, so no
further token match exists and the loop started at the advanced cursor
finds nothing. -/
lemma scanLoopAux_found_none_of_oob (text : List Char) :
    ∀ (fuel cursor : Nat), (scanLoopAux text fuel cursor).oob = true →
      (scanLoopAux text fuel cursor).found = none := by
  intro fuel
  induction fuel with
  | zero => intro cursor _; rfl
  | succ fuel ih =>
    intro cursor hoob
    rw [scanLoopAux] at hoob ⊢
    cases hfind : findTokenFrom text cursor with
    | none => rfl
    | some pos =>
      rw [hfind] at hoob
      simp only at hoob ⊢
      by_cases hq : qCharAt text (skipSpaces text (pos + 7)) = '('
      · have hlb : skipSpaces text (pos + 7) < text.length :=
          lt_of_qCharAt_lparen text _ hq
        rw [if_pos hq] at hoob ⊢
        cases hrb : findCharFrom text ')' (skipSpaces text (pos + 7) + 1) with
        | some rb =>
          rw [hrb] at hoob
          simp only [decide_eq_true_eq] at hoob
          omega
        | none =>
          rw [hrb] at hoob
          simp only [Bool.or_eq_true, decide_eq_true_eq] at hoob
          rcases hoob with hoob | hoob
          · omega
          · exact ih (pos + 7) hoob
      · rw [if_neg hq] at hoob ⊢
        simp only [Bool.or_eq_true, decide_eq_true_eq] at hoob
        rcases hoob with hoob | hoob
        · -- the skip ran to the end: everything after the cursor is space
          have hsp := skipSpacesAux_all_spaces text (text.length - (pos + 7)) (pos + 7)
            hoob
          have : findTokenFrom text (pos + 7) = none := by
            rw [findTokenFrom]
            exact findTokenFromAux_none_of_spaces text (pos + 7) hsp _ _ le_rfl
          cases fuel with
          | zero => rfl
          | succ fuel' =>
            rw [scanLoopAux, this]
        · exact ih (pos + 7) hoob

/-- Content with no bare `\n`: every `\n` in the byte sequence is
immediately preceded by `\r`. -/
def noBareLf (s : String) : Prop :=
  ∀ i : Nat, s.data.get? i = some '\n' → ∃ j, i = j + 1 ∧ s.data.get? j = some '\r'

/-- After the `\n` to `\r\n` replacement, every `\n` is immediately
preceded by the `\r` inserted with it. -/
lemma replaceLfCrLf_no_bare_lf (l : List Char) :
    ∀ i : Nat, (replaceLfCrLf l).get? i = some '\n' →
      ∃ j, i = j + 1 ∧ (replaceLfCrLf l).get? j = some '\r' := by
  induction l with
  | nil => intro i h; simp [replaceLfCrLf] at h
  | cons c rest ih =>
    intro i h
    by_cases hc : c = '\n'
    · subst hc
      rw [replaceLfCrLf, if_pos rfl] at h ⊢
      match i, h with
      | 1, _ => exact ⟨0, rfl, rfl⟩
      | n + 2, h =>
        obtain ⟨j, rfl, hj⟩ := ih n h
        exact ⟨j + 2, rfl, hj⟩
    · rw [replaceLfCrLf, if_neg hc] at h ⊢
      match i, h with
      | 0, h => exact absurd (Option.some.inj h) hc
      | n + 1, h =>
        obtain ⟨j, rfl, hj⟩ := ih n h
        exact ⟨j + 1, rfl, hj⟩

/-- Any string that went through the CRLF transform has no bare `\n`. -/
lemma noBareLf_applyNewline (raw : String) : noBareLf (applyNewline true raw) := by
  intro i h
  exact replaceLfCrLf_no_bare_lf raw.data i h

/-- Every file content written by `CreateNewProject` is the newline
transform of one of the three templates. -/
lemma createNewProject_content (orc : Oracle) (folder name : String) (crlf : Bool)
    (p c : String) (h : (p, c) ∈ (createNewProject orc folder name crlf).writtenFiles) :
    c = applyNewline crlf (newProjectDescriptor name) ∨
    c = applyNewline crlf (cmakeListsText name) ∨
    c = applyNewline crlf mainCcText := by
  rw [createNewProject] at h
  split at h
  · simp at h
  · split at h
    · simp at h
    · split at h
      · simp only [List.mem_singleton, Prod.mk.injEq] at h
        exact Or.inl h.2
      · split at h
        · simp only [List.mem_cons, List.not_mem_nil, or_false, Prod.mk.injEq] at h
          rcases h with h | h
          · exact Or.inl h.2
          · exact Or.inr (Or.inl h.2)
        · simp only [List.mem_cons, List.not_mem_nil, or_false, Prod.mk.injEq] at h
          rcases h with h | h | h
          · exact Or.inl h.2
          · exact Or.inr (Or.inl h.2)
          · exact Or.inr (Or.inr h.2)

/-- Every file content written by
`CreateProjectForExistingCMakeListsTxtFile` is the newline transform of the
attach-mode descriptor. -/
lemma createAttach_content (orc : Oracle) (cmakeFileDir buildDir : AbsPath)
    (name : String) (crlf : Bool) (p c : String)
    (h : (p, c) ∈ (createProjectForExistingCMakeListsTxtFile
        orc cmakeFileDir buildDir name crlf).writtenFiles) :
    c = applyNewline crlf (attachDescriptor name (relativeFilePath cmakeFileDir buildDir)) := by
  rw [createProjectForExistingCMakeListsTxtFile] at h
  split at h
  · simp at h
  · simp only [List.mem_singleton, Prod.mk.injEq] at h
    exact h.2

/-! ## Claims -/

/-- C1, counterexample: for the configuration text `project("Foo Bar")`
the guesser does not return the full quoted name `Foo Bar`; it stops at the
interior space and returns `Foo`.  This refutes the claim that for a
quoted argument the returned name is everything up to the next
double-quote. -/
theorem claim_C1_counterexample :
    tryGuessProjectName
      ⟨false, true, ("project(\"Foo Bar\")").data, ("somedir").data⟩ = ("Foo").data ∧
    ("Foo").data ≠ ("Foo Bar").data := by
  decide

/-- C1, amended: when the trimmed argument string starts with a
double-quote, the returned name is everything up to the first closing
double-quote or whitespace character, whichever comes first.  Stated
end-to-end: for a text `project("<a> <b>")<s>` whose quoted part opens
with a run `a` free of whitespace, quotes and closing brackets, the
guesser returns exactly `a`, discarding the rest of the quoted string. -/
theorem claim_C1 (a b s dirName : List Char)
    (ha : ∀ c ∈ a, qIsSpace c = false ∧ c ≠ '"' ∧ c ≠ ')')
    (hb : ∀ c ∈ b, c ≠ ')') :
    tryGuessProjectName
      ⟨false, true,
       tokenParen ++ (('"' :: (a ++ ' ' :: b)) ++ ['"']) ++ ')' :: s, dirName⟩ = a := by
  have hnotin : ')' ∉ ('"' :: (a ++ ' ' :: b)) ++ ['"'] := by
    intro hmem
    simp only [List.cons_append, List.mem_cons, List.mem_append] at hmem
    rcases hmem with h | h
    · exact absurd h.symm (by decide)
    rcases h with (h | h) | h
    · exact (ha ')' h).2.2 rfl
    · rcases h with h | h
      · exact absurd h.symm (by decide)
      · exact hb ')' h rfl
    · simp at h
  have hscan := scanText_firstMatch (('"' :: (a ++ ' ' :: b)) ++ ['"']) s hnotin
  have htrim : qTrim (('"' :: (a ++ ' ' :: b)) ++ ['"']) =
      ('"' :: (a ++ ' ' :: b)) ++ ['"'] := by
    apply qTrim_eq_self
    · intro c hc
      simp only [List.cons_append, List.head?_cons, Option.some.injEq] at hc
      subst hc; decide
    · intro c hc
      rw [List.getLast?_concat] at hc
      cases hc; decide
  have hname : nameFromArgs (('"' :: (a ++ ' ' :: b)) ++ ['"']) = a := by
    rw [List.cons_append, nameFromArgs, if_pos rfl]
    have : (a ++ ' ' :: b) ++ ['"'] = a ++ ' ' :: (b ++ ['"']) := by
      rw [List.append_assoc]; rfl
    rw [this]
    exact scanName_append_stop true a (b ++ ['"']) ' ' (Or.inr (by decide))
      fun c hc => ⟨(ha c hc).1, (ha c hc).2.1⟩
  have hfound :
      (scanText (tokenParen ++ (('"' :: (a ++ ' ' :: b)) ++ ['"']) ++ ')' :: s)).found =
        some a := by
    rw [hscan, htrim, hname]
  simp only [tryGuessProjectName, hfound]
  simp

/-- C1 witness: the amended claim at the concrete input
`project("Foo Bar")`, which yields `Foo`. -/
theorem claim_C1_witness :
    tryGuessProjectName
      ⟨false, true,
       tokenParen ++ (('"' :: (("Foo").data ++ ' ' :: ("Bar").data)) ++ ['"']) ++ ')' :: [],
       []⟩ = ("Foo").data :=
  claim_C1 ("Foo").data ("Bar").data [] [] (by decide) (by decide)

/-- C6: the scan returns the name extracted from the first well-formed
`project(<args>)` occurrence and the outcome is independent of everything
after its closing bracket — so later occurrences are never examined — and,
concretely, `project()project(Better)` yields the empty name even though a
later occurrence would yield `Better`. -/
theorem claim_C6 (args s₁ s₂ : List Char) (h : ')' ∉ args) :
    (scanText (tokenParen ++ args ++ ')' :: s₁)).found =
      some (nameFromArgs (qTrim args)) ∧
    (scanText (tokenParen ++ args ++ ')' :: s₁)).found =
      (scanText (tokenParen ++ args ++ ')' :: s₂)).found ∧
    (scanText (("project()project(Better)").data)).found = some [] := by
  refine ⟨?_, ?_, by decide⟩
  · rw [scanText_firstMatch args s₁ h]
  · rw [scanText_firstMatch args s₁ h, scanText_firstMatch args s₂ h]

/-- C6 witness: the first-match property at the concrete argument `N` with
two different suffixes. -/
theorem claim_C6_witness :
    (scanText (tokenParen ++ ['N'] ++ ')' :: ['x'])).found =
      some (nameFromArgs (qTrim ['N'])) ∧
    (scanText (tokenParen ++ ['N'] ++ ')' :: ['x'])).found =
      (scanText (tokenParen ++ ['N'] ++ ')' :: [])).found ∧
    (scanText (("project()project(Better)").data)).found = some [] :=
  claim_C6 ['N'] ['x'] [] (by decide)

/-- C7: when the readable configuration text contains no closing bracket
at all (in particular for any text with `project(` and no `)` anywhere),
and likewise for empty text, the guesser returns the directory-name
fallback, never a partial name. -/
theorem claim_C7 (text dirName : List Char) (h : ')' ∉ text) :
    tryGuessProjectName ⟨false, true, text, dirName⟩ = dirName ∧
    tryGuessProjectName ⟨false, true, [], dirName⟩ = dirName := by
  have hfound : (scanText text).found = none :=
    scanLoopAux_found_none_of_no_rparen text h (text.length + 1) 0
  exact ⟨by simp [tryGuessProjectName, hfound], rfl⟩

/-- C7 witness: the fallback at the concrete unterminated text
`project(`. -/
theorem claim_C7_witness :
    tryGuessProjectName
      ⟨false, true, ("project(").data, ("mydir").data⟩ = ("mydir").data ∧
    tryGuessProjectName ⟨false, true, [], ("mydir").data⟩ = ("mydir").data :=
  claim_C7 ("project(").data ("mydir").data (by decide)

/-- C8: the token search is a case-insensitive substring match with no
word-boundary check: `xproject(A)` still yields `A`, and so does
`PROJECT(A)`. -/
theorem claim_C8 :
    tryGuessProjectName
      ⟨false, true, ("xproject(A)").data, ("somedir2").data⟩ = ("A").data ∧
    tryGuessProjectName
      ⟨false, true, ("PROJECT(A)").data, ("somedir2").data⟩ = ("A").data := by
  decide

/-- C9, counterexample: on the text consisting of exactly `project` the
whitespace skip stops at the end of the text and the `(` test is performed
at the position one past the end — refuting the claim that the scan reads
only in-bounds character positions. -/
theorem claim_C9_counterexample :
    (scanText (("project").data)).oob = true := by
  decide

/-- C9, amended: the `(` test can touch the position one past the end
(exactly when an occurrence of `project` is followed only by whitespace up
to the end of the text); under Qt 5's `QCharRef` read semantics that
access yields the null character, the test fails, no name is found from
that point on, and the guesser returns the directory-name fallback. -/
theorem claim_C9 (text dirName : List Char) (h : (scanText text).oob = true) :
    (scanText text).found = none ∧
    tryGuessProjectName ⟨false, true, text, dirName⟩ = dirName := by
  have hf : (scanText text).found = none :=
    scanLoopAux_found_none_of_oob text (text.length + 1) 0 h
  exact ⟨hf, by simp [tryGuessProjectName, hf]⟩

/-- C9 witness: the amended claim at the concrete text `project`. -/
theorem claim_C9_witness :
    (scanText (("project").data)).found = none ∧
    tryGuessProjectName
      ⟨false, true, ("project").data, ("mydir2").data⟩ = ("mydir2").data :=
  claim_C9 ("project").data ("mydir2").data (by decide)

/-- C10: when the configuration file cannot be opened, the guesser skips
the text scan entirely (the result does not depend on the text) and
returns the directory-name fallback — the same result as scanning readable
text in which no `project(...)` construct is found. -/
theorem claim_C10 (text dirName : List Char) :
    tryGuessProjectName ⟨false, false, text, dirName⟩ = dirName ∧
    tryGuessProjectName ⟨false, false, text, dirName⟩ =
      tryGuessProjectName ⟨false, true, [], dirName⟩ :=
  ⟨rfl, rfl⟩

set_option maxRecDepth 4000 in
/-- C2, counterexample: an environment in which creating `/tmp/x/build`
fails (and everything else succeeds) makes `CreateNewProject` ignore the
failed `dir.mkdir("build")` of line 196: the run reports success with no
error dialog — a directory-create that fails silently while the operation
continues and reports success. -/
theorem claim_C2_counterexample :
    createNewProject
      ⟨fun p => decide (p ≠ "/tmp/x/build"), fun _ => true⟩ "/tmp/x" "Demo" false =
    ⟨true, [], ["/tmp/x", "/tmp/x/src", "/tmp/x/src/Demo"], ["/tmp/x/build"],
     [("/tmp/x/Demo.cide", newProjectDescriptor "Demo"),
      ("/tmp/x/CMakeLists.txt", cmakeListsText "Demo"),
      ("/tmp/x/src/Demo/main.cc", mainCcText)]⟩ := by
  decide

/-- C2, amended: only the initial project-directory creation
(`dir.mkpath(".")` in `CreateNewProject`) is checked — its failure is
reported with the directory path and aborts the run — while the later
`mkdir` calls of `CreateNewProject` and the build-directory `mkpath` of
the attach variant ignore failure: the attach run reports success with no
error whenever its descriptor file opens, regardless of the directory
create outcome. -/
theorem claim_C2 (orc : Oracle) (folder name : String) (crlf : Bool)
    (cmakeFileDir buildDir : AbsPath) (aname : String) (acrlf : Bool)
    (h1 : orc.createDirOk folder = false)
    (h2 : orc.openFileOk (filePath (absPathString cmakeFileDir) (aname ++ ".cide")) = true) :
    createNewProject orc folder name crlf =
      ⟨false, [errProjectDir folder], [], [folder], []⟩ ∧
    (createProjectForExistingCMakeListsTxtFile orc cmakeFileDir buildDir aname acrlf).success
      = true ∧
    (createProjectForExistingCMakeListsTxtFile orc cmakeFileDir buildDir aname acrlf).reportedErrors
      = [] := by
  refine ⟨?_, ?_, ?_⟩
  · rw [createNewProject, if_pos h1]
  · rw [createProjectForExistingCMakeListsTxtFile, if_neg (by simp [h2])]
  · rw [createProjectForExistingCMakeListsTxtFile, if_neg (by simp [h2])]

/-- C2 witness: the amended claim in an environment in which every
directory create fails and every file open succeeds. -/
theorem claim_C2_witness :
    createNewProject ⟨fun _ => false, fun _ => true⟩ "/tmp/x" "Demo" false =
      ⟨false, [errProjectDir "/tmp/x"], [], ["/tmp/x"], []⟩ ∧
    (createProjectForExistingCMakeListsTxtFile ⟨fun _ => false, fun _ => true⟩
      ⟨"", ["home", "p"]⟩ ⟨"", ["home", "p", "build"]⟩ "Att" false).success = true ∧
    (createProjectForExistingCMakeListsTxtFile ⟨fun _ => false, fun _ => true⟩
      ⟨"", ["home", "p"]⟩ ⟨"", ["home", "p", "build"]⟩ "Att" false).reportedErrors = [] :=
  claim_C2 ⟨fun _ => false, fun _ => true⟩ "/tmp/x" "Demo" false
    ⟨"", ["home", "p"]⟩ ⟨"", ["home", "p", "build"]⟩ "Att" false rfl rfl

/-- C3, counterexample: attaching with a build directory on a different
filesystem root (`D:` vs `C:`) reports no input error, performs the write,
and stores the non-relative absolute path `D:/build` in the descriptor —
refuting the claim that a cross-root attach is rejected before any I/O. -/
theorem claim_C3_counterexample :
    createProjectForExistingCMakeListsTxtFile ⟨fun _ => true, fun _ => true⟩
      ⟨"C:", ["proj"]⟩ ⟨"D:", ["build"]⟩ "Demo" false =
    ⟨true, [], ["D:/build"], [],
     [("C:/proj/Demo.cide",
       "name: Demo\nprojectCMakeDir: D:/build\nbuildDir: D:/build\nrunDir: D:/build\nrunCmd: ./Demo\n")]⟩ := by
  decide

/-- C3, amended: no cross-root check exists. When the build directory lies
on a different root, `QDir::relativeFilePath` returns the absolute path
unchanged, the descriptor is written with that absolute value, and the
operation reports success with no error — provided only that the
descriptor file opens. -/
theorem claim_C3 (orc : Oracle) (cmakeFileDir buildDir : AbsPath)
    (name : String) (crlf : Bool)
    (hroot : cmakeFileDir.root ≠ buildDir.root)
    (hopen : orc.openFileOk (filePath (absPathString cmakeFileDir) (name ++ ".cide")) = true) :
    (createProjectForExistingCMakeListsTxtFile orc cmakeFileDir buildDir name crlf).success
      = true ∧
    (createProjectForExistingCMakeListsTxtFile orc cmakeFileDir buildDir name crlf).reportedErrors
      = [] ∧
    (createProjectForExistingCMakeListsTxtFile orc cmakeFileDir buildDir name crlf).writtenFiles
      = [(filePath (absPathString cmakeFileDir) (name ++ ".cide"),
          applyNewline crlf (attachDescriptor name (absPathString buildDir)))] := by
  have hrel : relativeFilePath cmakeFileDir buildDir = absPathString buildDir := by
    rw [relativeFilePath, if_pos hroot]
  refine ⟨?_, ?_, ?_⟩ <;>
    (rw [createProjectForExistingCMakeListsTxtFile, if_neg (by simp [hopen])]
     try simp [hrel])

/-- C3 witness: the amended claim at the concrete cross-root input. -/
theorem claim_C3_witness :
    (createProjectForExistingCMakeListsTxtFile ⟨fun _ => true, fun _ => true⟩
      ⟨"C:", ["proj"]⟩ ⟨"D:", ["build"]⟩ "Demo" false).success = true ∧
    (createProjectForExistingCMakeListsTxtFile ⟨fun _ => true, fun _ => true⟩
      ⟨"C:", ["proj"]⟩ ⟨"D:", ["build"]⟩ "Demo" false).reportedErrors = [] ∧
    (createProjectForExistingCMakeListsTxtFile ⟨fun _ => true, fun _ => true⟩
      ⟨"C:", ["proj"]⟩ ⟨"D:", ["build"]⟩ "Demo" false).writtenFiles
      = [(filePath (absPathString ⟨"C:", ["proj"]⟩) ("Demo" ++ ".cide"),
          applyNewline false (attachDescriptor "Demo" (absPathString ⟨"D:", ["build"]⟩)))] :=
  claim_C3 ⟨fun _ => true, fun _ => true⟩ ⟨"C:", ["proj"]⟩ ⟨"D:", ["build"]⟩
    "Demo" false (by decide) rfl

set_option maxRecDepth 4000 in
/-- C4: for `NewProject` mode with name `Demo`, directory `/tmp/x` and LF
newlines, and with every filesystem operation permitted, the run succeeds,
writes exactly `Demo.cide` (the six descriptor fields in order),
`CMakeLists.txt` and `src/Demo/main.cc`, and the directories it creates
are exactly those covered by the recursive creation of `/tmp/x`,
`/tmp/x/src/Demo` and `/tmp/x/build`. -/
theorem claim_C4 :
    createNewProject ⟨fun _ => true, fun _ => true⟩ "/tmp/x" "Demo" false =
      ⟨true, [],
       ["/tmp/x", "/tmp/x/src", "/tmp/x/src/Demo", "/tmp/x/build"], [],
       [("/tmp/x/Demo.cide",
         "name: Demo\nprojectCMakeDir: build\nbuildDir: build\nbuildTarget: Demo\nrunDir: build\nrunCmd: ./Demo\n"),
        ("/tmp/x/CMakeLists.txt", cmakeListsText "Demo"),
        ("/tmp/x/src/Demo/main.cc", mainCcText)]⟩ ∧
    (∀ c ∈ ["/tmp/x", "/tmp/x/src/Demo", "/tmp/x/build"],
      c ∈ (createNewProject ⟨fun _ => true, fun _ => true⟩ "/tmp/x" "Demo" false).createdDirs) ∧
    (∀ d ∈ (createNewProject ⟨fun _ => true, fun _ => true⟩ "/tmp/x" "Demo" false).createdDirs,
      ∃ c ∈ ["/tmp/x", "/tmp/x/src/Demo", "/tmp/x/build"], coveredBy d c = true) := by
  decide

/-- C5: with the CRLF newline preference, every file content generated by
either scaffolding variant contains no bare `\n`: every `\n` of the
written bytes is immediately preceded by `\r`, because each content is
built with `\n` and passed through the `\n` to `\r\n` replacement as a
final transform. -/
theorem claim_C5 (orc : Oracle) (folder name : String)
    (cmakeFileDir buildDir : AbsPath) (aname : String) (p c : String)
    (h : (p, c) ∈ (createNewProject orc folder name true).writtenFiles ∨
         (p, c) ∈ (createProjectForExistingCMakeListsTxtFile
             orc cmakeFileDir buildDir aname true).writtenFiles) :
    noBareLf c := by
  rcases h with h | h
  · rcases createNewProject_content orc folder name true p c h with h' | h' | h' <;>
      rw [h'] <;> exact noBareLf_applyNewline _
  · rw [createAttach_content orc cmakeFileDir buildDir aname true p c h]
    exact noBareLf_applyNewline _

/-- C5 witness: the CRLF descriptor written for the `Demo` project has no
bare `\n`. -/
theorem claim_C5_witness :
    noBareLf (applyNewline true (newProjectDescriptor "Demo")) :=
  claim_C5 ⟨fun _ => true, fun _ => true⟩ "/tmp/x" "Demo" ⟨"", []⟩ ⟨"", []⟩ "Att2"
    "/tmp/x/Demo.cide" (applyNewline true (newProjectDescriptor "Demo"))
    (Or.inl (by decide))

end Cide
